import Mathlib

/-!
Verification of the kas widget-toolkit core: size-rule algebra, widget
numbering and id-addressed dispatch, and the event-manager grab/timer
protocol.  Definitions are shallow embeddings of the Rust source
(`src/event/events.rs`, `src/window.rs`, `src/widget/layout.rs`,
`src/widget/window.rs`); parts of the system whose implementation is not in
the source corpus (the `SizeRules` combination code, the event `Manager`,
the widget enumeration pass, leaf-widget handlers) are modelled from the
specification, as indicated in each doc comment.
-/

namespace Kas

/-! ## Input sources (`src/event/events.rs`) -/

/-- Mouse buttons, as used by `PressSource::Mouse` (a re-export of the
windowing backend's button type; only the named variants matter here). -/
inductive MouseButton : Type where
  | left
  | right
  | middle
  | other : Nat → MouseButton
deriving DecidableEq

/-- Source of a press event: `PressSource` from `src/event/events.rs`
(`Mouse(MouseButton)` or `Touch(u64)`). -/
inductive PressSource : Type where
  | mouse : MouseButton → PressSource
  | touch : Nat → PressSource
deriving DecidableEq

/-- `PressSource::is_primary` from `src/event/events.rs`: the left mouse
button or any touch event. -/
def PressSource.is_primary : PressSource → Bool
  | PressSource.mouse button => button = MouseButton.left
  | PressSource.touch _ => true

/-- Screen coordinates (`Coord`): a pair of signed integers. -/
def Coord : Type := Int × Int
deriving DecidableEq

/-- Component-wise difference of coordinates, used for press-move deltas. -/
def Coord.sub (a b : Coord) : Coord := (a.1 - b.1, a.2 - b.2)

/-- Events delivered to widgets: the press variants of `Event` from
`src/event/events.rs`.  `pressEnd` carries `end_id : Option Nat`; per the
source doc comment, `end_id = none` is a "cancelled press" (the press ended
outside the application window). -/
inductive Event : Type where
  | pressStart (source : PressSource) (coord : Coord)
  | pressMove (source : PressSource) (coord : Coord) (delta : Coord)
  | pressEnd (source : PressSource) (end_id : Option Nat) (coord : Coord)
deriving DecidableEq

/-! ## Size-rule algebra

Modelled from the spec: the `SizeRules` type and its sequential (row)
combination, whose implementation (`kas::layout::SizeRules`) is not in the
source corpus — only its callers (`src/widget/window.rs`) and the
constraint-based predecessor (`src/widget/layout.rs`) are. -/

/-- Modelled from the spec: `StretchPolicy`, an ordered enum
`Fixed < LowUtility < HighUtility < Filler`. -/
inductive StretchPolicy : Type where
  | fixed
  | lowUtility
  | highUtility
  | filler
deriving DecidableEq

/-- Rank of a stretch policy in the spec's order. -/
def StretchPolicy.rank : StretchPolicy → Nat
  | StretchPolicy.fixed => 0
  | StretchPolicy.lowUtility => 1
  | StretchPolicy.highUtility => 2
  | StretchPolicy.filler => 3

/-- The higher of two stretch policies (combination preserves the highest
policy among operands). -/
def StretchPolicy.join (a b : StretchPolicy) : StretchPolicy :=
  if a.rank ≤ b.rank then b else a

/-- Modelled from the spec: a `SizeRules` value — minimum, ideal, margins
before/after, and a stretch policy — describing one widget's size
preference along one axis. -/
structure SizeRules : Type where
  min : Nat
  ideal : Nat
  margins : Nat × Nat
  stretch : StretchPolicy
deriving DecidableEq

/-- Modelled from the spec: the size rule of a composite with zero
children (`min = ideal = 0`, `stretch = Fixed`). -/
def SizeRules.empty : SizeRules := ⟨0, 0, (0, 0), StretchPolicy.fixed⟩

/-- Modelled from the spec: sequential (row/column) combination of two
adjacent size rules.  Minima and ideals add, together with the inter-child
margin (the larger of the two adjoining margins); the outer margins are
kept; the stretch policy is the higher of the two. -/
def SizeRules.seqAppend (a b : SizeRules) : SizeRules :=
  ⟨a.min + b.min + Nat.max a.margins.2 b.margins.1,
   a.ideal + b.ideal + Nat.max a.margins.2 b.margins.1,
   (a.margins.1, b.margins.2),
   StretchPolicy.join a.stretch b.stretch⟩

/-- Modelled from the spec: the combined rule of a sequential (horizontal)
composite, folding `seqAppend` over the children's rules in order. -/
def seqRules : List SizeRules → SizeRules
  | [] => SizeRules.empty
  | r :: rest => rest.foldl SizeRules.seqAppend r

/-- Sum of the minima of a list of size rules. -/
def sumMins (rs : List SizeRules) : Nat := (rs.map SizeRules.min).sum

/-- Sum of the ideals of a list of size rules. -/
def sumIdeals (rs : List SizeRules) : Nat := (rs.map SizeRules.ideal).sum

/-- Total inter-child margin of a chain of rules whose predecessor ends
with trailing margin `prev`. -/
def interFrom (prev : Nat) : List SizeRules → Nat
  | [] => 0
  | b :: rest => Nat.max prev b.margins.1 + interFrom b.margins.2 rest

/-- Total inter-child margin of a sequential composite's children. -/
def interMargins : List SizeRules → Nat
  | [] => 0
  | a :: rest => interFrom a.margins.2 rest

theorem foldl_seqAppend_min (rest : List SizeRules) :
    ∀ a : SizeRules, (rest.foldl SizeRules.seqAppend a).min
      = a.min + sumMins rest + interFrom a.margins.2 rest := by
  induction rest with
  | nil => intro a; simp [sumMins, interFrom]
  | cons b rest ih =>
    intro a
    have h := ih (SizeRules.seqAppend a b)
    simp only [List.foldl_cons] at *
    rw [h]
    simp [SizeRules.seqAppend, sumMins, interFrom]
    omega

theorem foldl_seqAppend_ideal (rest : List SizeRules) :
    ∀ a : SizeRules, (rest.foldl SizeRules.seqAppend a).ideal
      = a.ideal + sumIdeals rest + interFrom a.margins.2 rest := by
  induction rest with
  | nil => intro a; simp [sumIdeals, interFrom]
  | cons b rest ih =>
    intro a
    have h := ih (SizeRules.seqAppend a b)
    simp only [List.foldl_cons] at *
    rw [h]
    simp [SizeRules.seqAppend, sumIdeals, interFrom]
    omega

/-- C1: for a horizontal (sequential) composite, the combined minimum is
the sum of the children's minima plus the inter-child margins, and the
combined ideal is the sum of the children's ideals plus the inter-child
margins; in particular, with two children of min/ideal `(10, 20)` and
`(15, 25)` and zero margins the composite reports `min = 25` and
`ideal = 45`. -/
theorem seqRules_sum :
    (∀ rs : List SizeRules, (seqRules rs).min = sumMins rs + interMargins rs)
    ∧ (∀ rs : List SizeRules, (seqRules rs).ideal = sumIdeals rs + interMargins rs)
    ∧ (seqRules [⟨10, 20, (0, 0), StretchPolicy.fixed⟩,
                 ⟨15, 25, (0, 0), StretchPolicy.fixed⟩]).min = 25
    ∧ (seqRules [⟨10, 20, (0, 0), StretchPolicy.fixed⟩,
                 ⟨15, 25, (0, 0), StretchPolicy.fixed⟩]).ideal = 45 := by
  refine ⟨?_, ?_, by decide, by decide⟩
  · intro rs
    cases rs with
    | nil => simp [seqRules, SizeRules.empty, sumMins, interMargins]
    | cons a rest =>
      simp only [seqRules, interMargins]
      rw [foldl_seqAppend_min]
      simp [sumMins]
  · intro rs
    cases rs with
    | nil => simp [seqRules, SizeRules.empty, sumIdeals, interMargins]
    | cons a rest =>
      simp only [seqRules, interMargins]
      rw [foldl_seqAppend_ideal]
      simp [sumIdeals]

/-! ## Widget numbering and id-addressed dispatch

The dispatch code is embedded from the source: `make_layout`'s
`handle_action` (`src/widget/layout.rs`, lines 387-400) scans its children
in order and recurses into the first child whose number is at least the
target `num`; otherwise it answers for its own number or prints
"Warning: incorrect widget number" and returns `ignore(action)`.  The
enumeration pass that assigns numbers is not in the source corpus; it is
modelled below (`numberShape`), and the dispatch code is the authority for
which order it must use. -/

mutual

/-- A configured widget tree: own number, mutable per-widget state (a
stand-in for whatever a leaf handler mutates), and children. -/
inductive WTree : Type where
  | mk : Nat → Nat → WForest → WTree

/-- Children of a widget, in declaration order. -/
inductive WForest : Type where
  | nil : WForest
  | cons : WTree → WForest → WForest

end

/-- The widget's assigned number (`get_number` in the source). -/
def WTree.number : WTree → Nat
  | WTree.mk n _ _ => n

/-- The widget's per-widget state payload. -/
def WTree.payload : WTree → Nat
  | WTree.mk _ st _ => st

/-- Outcome of id-addressed dispatch: either the event reached the widget
with the given number (which may still ignore it), or the tree printed
"Warning: incorrect widget number" and returned the ignored response. -/
inductive Routed : Type where
  | to : Nat → Routed
  | badNumber : Routed
deriving DecidableEq

mutual

/-- `handle_action` from `make_layout` (`src/widget/layout.rs` 387-400),
with `h` abstracting what a leaf widget's handler does to its own state.
A container (non-empty forest) whose own number matches returns
`ignore(action)` without touching state ("no actions handled by this
widget"); a leaf whose number matches runs its handler (leaf handlers are
not in the source corpus and are modelled from the spec: an id-addressed
action is delivered to the widget owning the id). -/
def WTree.dispatch (h : Nat → Nat) : WTree → Nat → Routed × WTree
  | WTree.mk n st f, num =>
    match WForest.dispatch h f num with
    | some (r, f2) => (r, WTree.mk n st f2)
    | none =>
      if num = n then
        match f with
        | WForest.nil => (Routed.to n, WTree.mk n (h st) f)
        | WForest.cons c rest => (Routed.to n, WTree.mk n st (WForest.cons c rest))
      else (Routed.badNumber, WTree.mk n st f)

/-- The child-scanning loop of `handle_action`: the first child whose
number is at least `num` receives the event (`if num <= child.get_number()`
in the source); `none` when no child claims the number. -/
def WForest.dispatch (h : Nat → Nat) : WForest → Nat → Option (Routed × WForest)
  | WForest.nil, _ => none
  | WForest.cons c rest, num =>
    if num ≤ c.number then
      some ((WTree.dispatch h c num).1, WForest.cons (WTree.dispatch h c num).2 rest)
    else
      match WForest.dispatch h rest num with
      | some (r, rest2) => some (r, WForest.cons c rest2)
      | none => none

end

/-- An unnumbered widget-tree shape (the input of the enumeration pass). -/
inductive Shape : Type where
  | mk : List Shape → Shape

mutual

/-- Number of widgets in a shape (itself plus all descendants). -/
def Shape.count : Shape → Nat
  | Shape.mk cs => 1 + countForest cs

/-- Number of widgets in a list of sibling shapes. -/
def countForest : List Shape → Nat
  | [] => 0
  | s :: rest => s.count + countForest rest

end

mutual

/-- Modelled enumeration pass (amended from the spec's "pre-order"): a
depth-first walk assigning consecutive numbers starting at `b`, each
widget numbered after its descendants, so a widget's own number is the
maximum of its subtree's contiguous block.  This is the order the source's
dispatch code requires. -/
def numberShape : Shape → Nat → WTree
  | Shape.mk cs, b => WTree.mk (b + countForest cs) 0 (numberForest cs b)

/-- Enumerate a list of sibling shapes left to right starting at `b`. -/
def numberForest : List Shape → Nat → WForest
  | [], _ => WForest.nil
  | s :: rest, b => WForest.cons (numberShape s b) (numberForest rest (b + s.count))

end

theorem numberShape_number (s : Shape) (b : Nat) :
    (numberShape s b).number + 1 = b + s.count := by
  cases s with
  | mk cs => simp [numberShape, WTree.number, Shape.count]; omega

theorem Shape.count_pos (s : Shape) : 1 ≤ s.count := by
  cases s with
  | mk cs => simp [Shape.count]

mutual

theorem route_shape : ∀ (s : Shape) (b num : Nat) (h : Nat → Nat),
    b ≤ num → num < b + s.count →
    (WTree.dispatch h (numberShape s b) num).1 = Routed.to num
  | Shape.mk cs, b, num, h, h1, h2 => by
    simp only [Shape.count] at h2
    simp only [numberShape, WTree.dispatch]
    by_cases hc : num < b + countForest cs
    · have hr := route_forest cs b num h h1 hc
      cases he : WForest.dispatch h (numberForest cs b) num with
      | none => rw [he] at hr; simp at hr
      | some p =>
        rw [he] at hr
        cases p with
        | mk r f2 =>
          simp at hr
          simp [hr]
    · have hnum : num = b + countForest cs := by omega
      have hm := miss_high_forest cs b num h (by omega)
      rw [hm]
      simp [hnum]
      cases hf : numberForest cs b with
      | nil => simp
      | cons c rest => simp

theorem route_forest : ∀ (cs : List Shape) (b num : Nat) (h : Nat → Nat),
    b ≤ num → num < b + countForest cs →
    (WForest.dispatch h (numberForest cs b) num).map Prod.fst
      = some (Routed.to num)
  | [], b, num, _, h1, h2 => by
    simp only [countForest] at h2; omega
  | s :: rest, b, num, h, h1, h2 => by
    simp only [countForest] at h2
    have hn := numberShape_number s b
    simp only [numberForest, WForest.dispatch]
    by_cases hc : num ≤ (numberShape s b).number
    · have hs := route_shape s b num h h1 (by omega)
      simp [hc, hs]
    · have h1' : b + s.count ≤ num := by omega
      have hr := route_forest rest (b + s.count) num h h1' (by omega)
      simp only [if_neg hc]
      cases he : WForest.dispatch h (numberForest rest (b + s.count)) num with
      | none => rw [he] at hr; simp at hr
      | some p =>
        rw [he] at hr
        cases p with
        | mk r rest2 =>
          simp at hr
          simp [hr]

theorem miss_high_forest : ∀ (cs : List Shape) (b num : Nat) (h : Nat → Nat),
    b + countForest cs ≤ num →
    WForest.dispatch h (numberForest cs b) num = none
  | [], _, _, _, _ => rfl
  | s :: rest, b, num, h, hge => by
    simp only [countForest] at hge
    have hn := numberShape_number s b
    have hcp := Shape.count_pos s
    simp only [numberForest, WForest.dispatch]
    have hc : ¬ num ≤ (numberShape s b).number := by omega
    have hr := miss_high_forest rest (b + s.count) num h (by omega)
    simp [hc, hr]

end

mutual

theorem miss_low_shape : ∀ (s : Shape) (b num : Nat) (h : Nat → Nat),
    num < b →
    WTree.dispatch h (numberShape s b) num = (Routed.badNumber, numberShape s b)
  | Shape.mk cs, b, num, h, hlt => by
    simp only [numberShape, WTree.dispatch]
    cases cs with
    | nil =>
      simp only [numberForest, WForest.dispatch]
      have : ¬ num = b + countForest ([] : List Shape) := by
        simp only [countForest]; omega
      simp [this]
    | cons s0 rest =>
      have hm := miss_low_forest s0 rest b num h hlt
      simp only [numberForest] at hm ⊢
      rw [hm]

theorem miss_low_forest : ∀ (s0 : Shape) (rest : List Shape) (b num : Nat) (h : Nat → Nat),
    num < b →
    WForest.dispatch h (numberForest (s0 :: rest) b) num
      = some (Routed.badNumber, numberForest (s0 :: rest) b)
  | s0, rest, b, num, h, hlt => by
    have hn := numberShape_number s0 b
    have hcp := Shape.count_pos s0
    have hc : num ≤ (numberShape s0 b).number := by omega
    have hs := miss_low_shape s0 b num h hlt
    simp only [numberForest, WForest.dispatch]
    simp [hc, hs]

end

mutual

/-- The numbers of a widget and all its descendants, listed in the
depth-first order descendants-before-self. -/
def WTree.ids : WTree → List Nat
  | WTree.mk n _ f => WForest.ids f ++ [n]

/-- The numbers of all widgets in a forest. -/
def WForest.ids : WForest → List Nat
  | WForest.nil => []
  | WForest.cons c rest => c.ids ++ rest.ids

end

mutual

theorem ids_shape : ∀ (s : Shape) (b : Nat),
    (numberShape s b).ids = List.range' b s.count
  | Shape.mk cs, b => by
    have hf := ids_forest cs b
    simp only [numberShape, WTree.ids, Shape.count, hf]
    have := List.range'_1_concat b (countForest cs)
    rw [Nat.add_comm 1 (countForest cs), this]

theorem ids_forest : ∀ (cs : List Shape) (b : Nat),
    (numberForest cs b).ids = List.range' b (countForest cs)
  | [], _ => rfl
  | s :: rest, b => by
    have hs := ids_shape s b
    have hr := ids_forest rest (b + s.count)
    simp only [numberForest, WForest.ids, countForest, hs, hr]
    rw [List.range'_append_1, Nat.add_comm]

end

/-- C3 (amended): widget numbering must be the depth-first
descendants-before-self (post-order) walk with consecutive numbers from a
base `b`: then every subtree's ids form one contiguous block whose maximum
is the subtree root's own id, and the source's `handle_action` dispatch
routes any number in the block to exactly the widget owning it. -/
theorem postorder_ids_and_dispatch (s : Shape) (b : Nat) (h : Nat → Nat) :
    (numberShape s b).ids = List.range' b s.count
    ∧ (numberShape s b).number + 1 = b + s.count
    ∧ ∀ num : Nat, b ≤ num → num < b + s.count →
        (WTree.dispatch h (numberShape s b) num).1 = Routed.to num :=
  ⟨ids_shape s b, numberShape_number s b,
   fun num h1 h2 => route_shape s b num h h1 h2⟩

/-- A concrete shape: a root with two leaf children. -/
def shapeTwoLeaves : Shape := Shape.mk [Shape.mk [], Shape.mk []]

/-- Witness for C3: on a root with two leaf children numbered from base 1
(leaves 1 and 2, root 3), dispatch routes number 2 to widget 2. -/
theorem postorder_ids_and_dispatch_witness :
    (WTree.dispatch (fun st => st + 1) (numberShape shapeTwoLeaves 1) 2).1
      = Routed.to 2 :=
  (postorder_ids_and_dispatch shapeTwoLeaves 1 (fun st => st + 1)).2.2 2
    (by decide) (by decide)

mutual

/-- Modelled from the spec's own words for the counterexample: the
"depth-first pre-order walk assigning consecutive ids starting at a
root-chosen base", i.e. each widget numbered before its descendants. -/
def preNumberShape : Shape → Nat → WTree
  | Shape.mk cs, b => WTree.mk b 0 (preNumberForest cs (b + 1))

/-- Pre-order enumeration of sibling shapes from `b`. -/
def preNumberForest : List Shape → Nat → WForest
  | [], _ => WForest.nil
  | s :: rest, b => WForest.cons (preNumberShape s b) (preNumberForest rest (b + s.count))

end

/-- Counterexample to C3 as stated: number the root-with-two-leaves shape
by the claimed depth-first pre-order walk from base 1 (root 1, leaves 2
and 3).  Widget number 1 is in the tree, yet the source's `handle_action`
dispatch answers "Warning: incorrect widget number" / ignore for it
instead of routing it to the root's subtree: the scan enters the first
child (number 2 ≥ 1) and bottoms out at a leaf that does not own 1. -/
theorem preorder_dispatch_misroutes :
    1 ∈ (preNumberShape shapeTwoLeaves 1).ids
    ∧ (WTree.dispatch (fun st => st + 1) (preNumberShape shapeTwoLeaves 1) 1).1
        = Routed.badNumber := by
  constructor
  · show 1 ∈ WTree.ids (preNumberShape shapeTwoLeaves 1)
    simp [preNumberShape, preNumberForest, shapeTwoLeaves,
      WTree.ids, WForest.ids]
  · rfl

/-- C4: an id-addressed action whose widget number is not in the tree
(below the base or above the root's number) is answered with
"Warning: incorrect widget number" and the ignored (no-op, unhandled)
response, and the widget tree is returned unchanged — no handler runs and
no fatal error is raised. -/
theorem stale_number_ignored (s : Shape) (b num : Nat) (h : Nat → Nat) :
    num < b ∨ (numberShape s b).number < num →
    WTree.dispatch h (numberShape s b) num
      = (Routed.badNumber, numberShape s b) := by
  intro hcase
  have hn := numberShape_number s b
  cases hcase with
  | inl hlt => exact miss_low_shape s b num h hlt
  | inr hgt =>
    cases s with
    | mk cs =>
      have hcount : (Shape.mk cs).count = 1 + countForest cs := rfl
      have hnum : b + countForest cs < num := by
        simp only [numberShape, WTree.number] at hgt
        exact hgt
      have hm := miss_high_forest cs b num h (by omega)
      simp only [numberShape, WTree.dispatch, hm]
      have : ¬ num = b + countForest cs := by omega
      simp [this]

/-- Witness for C4: on the root-with-two-leaves tree numbered from base 1
(ids 1..3), dispatching number 7 warns and leaves the tree unchanged. -/
theorem stale_number_ignored_witness :
    WTree.dispatch (fun st => st + 1) (numberShape shapeTwoLeaves 1) 7
      = (Routed.badNumber, numberShape shapeTwoLeaves 1) :=
  stale_number_ignored shapeTwoLeaves 1 7 (fun st => st + 1)
    (Or.inr (by decide))

/-! ## Event Manager: grab table and timers

Modelled from the spec: the event `Manager` itself is not in the source
corpus (only the `Event`/`PressSource` declarations it dispatches are).
A `Grab` holds `{source, owner, start_coord, last_coord}`; at most one
grab per source, a second `PressStart` for an already-grabbed source being
rejected with the prior state kept; `PressMove`/`PressEnd` for a grabbed
source go directly to the grab's owner, with `delta = coord - last_coord`
and `last_coord` updated; `PressEnd` destroys the grab, and an end outside
the application surface is delivered with `end_id = none`. -/

/-- Modelled from the spec: an active press grab. -/
structure Grab : Type where
  source : PressSource
  owner : Nat
  start_coord : Coord
  last_coord : Coord
deriving DecidableEq

/-- Modelled from the spec: the Event Manager's state — the grab table and
the pending timer requests `(deadline, owner)`. -/
structure ManagerState : Type where
  grabs : List Grab
  timers : List (Nat × Nat)
deriving DecidableEq

/-- The manager state at start-up: no grabs, no timers. -/
def ManagerState.initial : ManagerState := ⟨[], []⟩

/-- Whether some grab is held for the given source. -/
def sourceGrabbed (gs : List Grab) (src : PressSource) : Bool :=
  gs.any (fun g => g.source = src)

/-- Modelled from the spec: `update_on_timer` inserts the timer request
for the owner, replacing (not queueing after) any previous request held by
the same owner. -/
def updateOnTimer (timers : List (Nat × Nat)) (deadline owner : Nat) :
    List (Nat × Nat) :=
  (deadline, owner) :: timers.filter (fun t => ¬ t.2 = owner)

/-- Modelled from the spec: once per processed batch the manager fires all
timer requests whose deadline has elapsed, removing them; the first
component is the fired requests, the second the remaining ones. -/
def fireTimers (timers : List (Nat × Nat)) (now : Nat) :
    List (Nat × Nat) × List (Nat × Nat) :=
  (timers.filter (fun t => t.1 ≤ now), timers.filter (fun t => ¬ t.1 ≤ now))

/-- Raw input to the Event Manager.  For press starts, `target` is the
result of hit-testing the tree and `optIn` whether the resolved widget
requests a grab; for press ends, `inSurface` is whether the end coordinate
is inside the application surface and `resolved` the widget under it. -/
inductive RawInput : Type where
  | pressStart (source : PressSource) (coord : Coord) (target : Option Nat)
      (optIn : Bool)
  | pressMove (source : PressSource) (coord : Coord)
  | pressEnd (source : PressSource) (coord : Coord) (inSurface : Bool)
      (resolved : Nat)
  | requestTimer (deadline owner : Nat)
deriving DecidableEq

/-- Modelled from the spec: one step of the Event Manager.  Returns the
new state and the list of `(recipient widget id, event)` deliveries. -/
def managerStep (st : ManagerState) (i : RawInput) :
    ManagerState × List (Nat × Event) :=
  match i with
  | RawInput.pressStart src coord target optIn =>
    match target with
    | none => (st, [])
    | some id =>
      if sourceGrabbed st.grabs src then
        (st, [])
      else if optIn then
        ({ st with grabs := ⟨src, id, coord, coord⟩ :: st.grabs },
         [(id, Event.pressStart src coord)])
      else
        (st, [(id, Event.pressStart src coord)])
  | RawInput.pressMove src coord =>
    match st.grabs.find? (fun g => g.source = src) with
    | some g =>
      ({ st with
          grabs := st.grabs.map (fun g0 =>
            if g0.source = src then { g0 with last_coord := coord } else g0) },
       [(g.owner, Event.pressMove src coord (Coord.sub coord g.last_coord))])
    | none => (st, [])
  | RawInput.pressEnd src coord inSurface resolved =>
    match st.grabs.find? (fun g => g.source = src) with
    | some g =>
      ({ st with grabs := st.grabs.filter (fun g0 => ¬ g0.source = src) },
       [(g.owner,
         Event.pressEnd src (if inSurface then some resolved else none) coord)])
    | none => (st, [])
  | RawInput.requestTimer d o =>
    ({ st with timers := updateOnTimer st.timers d o }, [])

/-- The manager state after processing a whole input sequence. -/
def managerRun (inputs : List RawInput) : ManagerState :=
  inputs.foldl (fun st i => (managerStep st i).1) ManagerState.initial

/-- Number of grabs held for a given source. -/
def grabCount (gs : List Grab) (src : PressSource) : Nat :=
  (gs.filter (fun g => g.source = src)).length

theorem grabCount_zero_of_not_grabbed (gs : List Grab) (src : PressSource)
    (h : sourceGrabbed gs src = false) : grabCount gs src = 0 := by
  induction gs with
  | nil => rfl
  | cons g rest ih =>
    simp only [sourceGrabbed, List.any_cons, Bool.or_eq_false_iff] at h
    simp only [grabCount, List.filter_cons]
    have h1 : ¬ g.source = src := by
      by_contra hc
      simp [hc] at h
    simp only [decide_eq_true_eq] at *
    rw [if_neg h1]
    exact ih (by simpa [sourceGrabbed] using h.2)

theorem update_preserves_source (src : PressSource) (coord : Coord)
    (g0 : Grab) :
    (if g0.source = src then { g0 with last_coord := coord } else g0).source
      = g0.source := by
  by_cases h : g0.source = src <;> simp [h]

theorem grabCount_map_update (gs : List Grab) (src qsrc : PressSource)
    (coord : Coord) :
    grabCount (gs.map (fun g0 =>
      if g0.source = src then { g0 with last_coord := coord } else g0)) qsrc
    = grabCount gs qsrc := by
  induction gs with
  | nil => rfl
  | cons g rest ih =>
    simp only [List.map_cons, grabCount, List.filter_cons] at *
    rw [update_preserves_source src coord g]
    by_cases hq : g.source = qsrc
    · simp [hq, ih]
    · simp [hq, ih]

theorem grabCount_filter_le (gs : List Grab) (src qsrc : PressSource) :
    grabCount (gs.filter (fun g0 => ¬ g0.source = src)) qsrc
      ≤ grabCount gs qsrc := by
  have hsub : List.Sublist (gs.filter (fun g0 => ¬ g0.source = src)) gs :=
    List.filter_sublist gs
  have h2 := List.Sublist.filter (fun g => decide (g.source = qsrc)) hsub
  simpa [grabCount] using List.Sublist.length_le h2

/-- Each step of the manager preserves "at most one grab per source". -/
theorem managerStep_preserves_grabCount (st : ManagerState) (i : RawInput)
    (src : PressSource) (h : grabCount st.grabs src ≤ 1) :
    grabCount ((managerStep st i).1).grabs src ≤ 1 := by
  cases i with
  | pressStart src0 coord target optIn =>
    cases target with
    | none => exact h
    | some id =>
      simp only [managerStep]
      by_cases hg : sourceGrabbed st.grabs src0 = true
      · simp [hg]; exact h
      · have hg' : sourceGrabbed st.grabs src0 = false := by
          simpa using hg
        cases optIn with
        | false => simp [hg']; exact h
        | true =>
          simp only [hg', Bool.false_eq_true, if_false, if_true]
          simp only [grabCount, List.filter_cons]
          by_cases hq : src0 = src
          · rw [if_pos (by simpa using hq)]
            have h0 := grabCount_zero_of_not_grabbed st.grabs src
              (by rw [← hq]; exact hg')
            simp only [grabCount] at h0
            simp [h0]
          · rw [if_neg (by simpa using hq)]
            exact h
  | pressMove src0 coord =>
    simp only [managerStep]
    cases hf : st.grabs.find? (fun g => g.source = src0) with
    | none => simpa [hf] using h
    | some g =>
      simp only [hf]
      rw [grabCount_map_update]
      exact h
  | pressEnd src0 coord inSurface resolved =>
    simp only [managerStep]
    cases hf : st.grabs.find? (fun g => g.source = src0) with
    | none => simpa [hf] using h
    | some g =>
      simp only [hf]
      exact Nat.le_trans (grabCount_filter_le st.grabs src0 src) h
  | requestTimer d o => exact h

/-- C2: for every sequence of raw inputs, the Event Manager holds at most
one grab per press source, and a `PressStart` arriving for a source that
already holds a grab leaves the grab table unchanged (no second grab is
ever created). -/
theorem grab_exclusive :
    (∀ (inputs : List RawInput) (src : PressSource),
      grabCount (managerRun inputs).grabs src ≤ 1)
    ∧ (∀ (st : ManagerState) (src : PressSource) (coord : Coord)
        (target : Option Nat) (optIn : Bool),
        sourceGrabbed st.grabs src = true →
        ((managerStep st (RawInput.pressStart src coord target optIn)).1).grabs
          = st.grabs) := by
  constructor
  · intro inputs src
    have key : ∀ (l : List RawInput) (st : ManagerState),
        grabCount st.grabs src ≤ 1 →
        grabCount (l.foldl (fun st i => (managerStep st i).1) st).grabs src ≤ 1 := by
      intro l
      induction l with
      | nil => intro st h; exact h
      | cons i rest ih =>
        intro st h
        exact ih _ (managerStep_preserves_grabCount st i src h)
    exact key inputs ManagerState.initial (by simp [ManagerState.initial, grabCount])
  · intro st src coord target optIn hg
    cases target with
    | none => rfl
    | some id => simp [managerStep, hg]

/-- Witness for C2's second conjunct: with a left-button grab already
held, a second left-button `PressStart` leaves the single grab in place. -/
theorem grab_exclusive_witness :
    ((managerStep
        ⟨[⟨PressSource.mouse MouseButton.left, 4, (0, 0), (0, 0)⟩], []⟩
        (RawInput.pressStart (PressSource.mouse MouseButton.left) (5, 5)
          (some 9) true)).1).grabs
      = [⟨PressSource.mouse MouseButton.left, 4, (0, 0), (0, 0)⟩] :=
  grab_exclusive.2
    ⟨[⟨PressSource.mouse MouseButton.left, 4, (0, 0), (0, 0)⟩], []⟩
    (PressSource.mouse MouseButton.left) (5, 5) (some 9) true (by decide)

/-- C5: a `PressEnd` for a grabbed source is delivered to the grab's
owner; when the end coordinate is outside the application surface it
carries `end_id = none` (a "cancelled press", which the owner must treat
as an abort), and when it ends inside the surface it carries
`end_id = some id` for the resolved widget. -/
theorem pressEnd_cancelled_encoding (st : ManagerState) (src : PressSource)
    (coord : Coord) (resolved : Nat) (g : Grab)
    (hg : st.grabs.find? (fun g0 => g0.source = src) = some g) :
    (managerStep st (RawInput.pressEnd src coord false resolved)).2
      = [(g.owner, Event.pressEnd src none coord)]
    ∧ (managerStep st (RawInput.pressEnd src coord true resolved)).2
      = [(g.owner, Event.pressEnd src (some resolved) coord)] := by
  constructor <;> simp [managerStep, hg]

/-- Witness for C5: with a touch grab owned by widget 3, a press end
outside the surface delivers `end_id = none` to widget 3. -/
theorem pressEnd_cancelled_encoding_witness :
    (managerStep ⟨[⟨PressSource.touch 0, 3, (1, 1), (2, 2)⟩], []⟩
        (RawInput.pressEnd (PressSource.touch 0) (9, 9) false 5)).2
      = [(3, Event.pressEnd (PressSource.touch 0) none (9, 9))] :=
  (pressEnd_cancelled_encoding ⟨[⟨PressSource.touch 0, 3, (1, 1), (2, 2)⟩], []⟩
    (PressSource.touch 0) (9, 9) 5 ⟨PressSource.touch 0, 3, (1, 1), (2, 2)⟩
    (by decide)).1

theorem filter_not_owner_then_owner (l : List (Nat × Nat)) (o : Nat) :
    (l.filter (fun t => ¬ t.2 = o)).filter (fun t => t.2 = o) = [] := by
  induction l with
  | nil => rfl
  | cons t rest ih =>
    simp only [List.filter_cons]
    by_cases h : t.2 = o <;> simp [h, ih]

theorem filter_not_owner_sub_then_owner (l : List (Nat × Nat)) (o : Nat)
    (p : Nat × Nat → Bool) :
    ((l.filter (fun t => ¬ t.2 = o)).filter p).filter (fun t => t.2 = o)
      = [] := by
  rw [List.filter_eq_nil_iff]
  intro x hx
  have hx1 : x ∈ l.filter (fun t => ¬ t.2 = o) := List.mem_of_mem_filter hx
  have hx2 := List.of_mem_filter hx1
  simpa using hx2

theorem double_update (timers : List (Nat × Nat)) (o d1 d2 : Nat) :
    updateOnTimer (updateOnTimer timers d1 o) d2 o
      = (d2, o) :: ((timers.filter (fun t => ¬ t.2 = o)).filter
          (fun t => ¬ t.2 = o)) := by
  simp [updateOnTimer, List.filter_cons]

/-- C6: after two `update_on_timer` requests for the same owner `o` (first
deadline `d1`, then `d2`), the owner holds exactly one pending request, at
the later-requested deadline `d2`; firing at any time `now` delivers the
single `TimerUpdate` to `o` exactly when `d2` has elapsed — in particular
none at a replaced earlier deadline `d1 < d2`. -/
theorem timer_coalescing (timers : List (Nat × Nat)) (o d1 d2 now : Nat) :
    (updateOnTimer (updateOnTimer timers d1 o) d2 o).filter
        (fun t => t.2 = o) = [(d2, o)]
    ∧ ((fireTimers (updateOnTimer (updateOnTimer timers d1 o) d2 o) now).1.filter
        (fun t => t.2 = o))
      = (if d2 ≤ now then [(d2, o)] else []) := by
  rw [double_update]
  constructor
  · simp only [List.filter_cons]
    simp [filter_not_owner_then_owner
      (timers.filter (fun t => ¬ t.2 = o)) o]
  · simp only [fireTimers, List.filter_cons]
    by_cases hd : d2 ≤ now
    · simp [hd, List.filter_cons, filter_not_owner_sub_then_owner
        (timers.filter (fun t => ¬ t.2 = o)) o]
      exact fun a b _ hb _ => hb
    · simp [hd, filter_not_owner_sub_then_owner
        (timers.filter (fun t => ¬ t.2 = o)) o]
      exact fun a b _ hb _ => hb

/-! ## The `Window` widget (`src/widget/window.rs`) -/

/-- A widget's assigned rectangle: position and size. -/
structure Rect : Type where
  pos : Int × Int
  size : Nat × Nat
deriving DecidableEq

/-- Whether a coordinate lies inside a rectangle. -/
def Rect.contains (r : Rect) (c : Int × Int) : Bool :=
  decide (r.pos.1 ≤ c.1) && decide (c.1 < r.pos.1 + (r.size.1 : Int))
    && decide (r.pos.2 ≤ c.2) && decide (c.2 < r.pos.2 + (r.size.2 : Int))

/-- `AxisInfo`: which axis is queried and, for the second axis, the
already-fixed size of the first. -/
structure AxisInfo : Type where
  vertical : Bool
  fixed : Option Nat
deriving DecidableEq

/-- A leaf child widget with an id, content and assigned rectangle. -/
structure TextWidget : Type where
  id : Nat
  content : List Char
  rect : Rect
deriving DecidableEq

/-- Modelled from the spec: a leaf's `size_rules` is a pure function of
its content (text metrics, abstracted as the `metrics` parameter) and the
axis query; it has no side effect, so the widget is returned unchanged. -/
def textSizeRules (metrics : List Char → AxisInfo → SizeRules)
    (w : TextWidget) (axis : AxisInfo) : SizeRules × TextWidget :=
  (metrics w.content axis, w)

/-- Modelled from the spec: a leaf's `find_id` hit test — its own id when
the coordinate is inside its assigned rectangle, `none` otherwise. -/
def textFindId (w : TextWidget) (coord : Int × Int) : Option Nat :=
  if w.rect.contains coord then some w.id else none

/-- The `Window<W>` widget struct from `src/widget/window.rs`: core data
(the assigned rectangle), the `enforce_min`/`enforce_max` flags, a title
and the single child `w`. -/
structure WindowW : Type where
  core : Rect
  enforce_min : Bool
  enforce_max : Bool
  title : List Char
  w : TextWidget
deriving DecidableEq

/-- `Window::new` (`src/widget/window.rs`, lines 62-71): default core,
`enforce_min = true`, `enforce_max = false`. -/
def WindowW.new (title : List Char) (w : TextWidget) : WindowW :=
  ⟨⟨(0, 0), (0, 0)⟩, true, false, title, w⟩

/-- `Window::set_enforce_size` (`src/widget/window.rs`, lines 76-79). -/
def WindowW.set_enforce_size (win : WindowW) (min max : Bool) : WindowW :=
  { win with enforce_min := min, enforce_max := max }

/-- `Window::size_rules` (`src/widget/window.rs`, lines 89-92): the window
delegates the query to its single child and touches nothing else. -/
def windowSizeRules (metrics : List Char → AxisInfo → SizeRules)
    (win : WindowW) (axis : AxisInfo) : SizeRules × WindowW :=
  ((textSizeRules metrics win.w axis).1,
   { win with w := (textSizeRules metrics win.w axis).2 })

/-- `Window::find_id` (`src/widget/window.rs`, lines 100-103): the window
delegates the hit test to its single child, never claiming a coordinate
for itself. -/
def windowFindId (win : WindowW) (coord : Int × Int) : Option Nat :=
  textFindId win.w coord

/-- A size in pixels. -/
def Size : Type := Nat × Nat
deriving DecidableEq

/-- `Window::find_size` (`src/widget/window.rs`, lines 116-120), with the
result `(min, ideal)` of `layout::solve` (not in the source corpus) taken
as a parameter: the minimum is enforced only when `enforce_min` holds. -/
def windowFindSize (solved : Size × Size) (win : WindowW) :
    Option Size × Size :=
  (if win.enforce_min then some solved.1 else none, solved.2)

/-- `Window::resize` (`src/widget/window.rs`, lines 122-132), with the
result `(min, ideal)` of `layout::solve_and_set` taken as a parameter. -/
def windowResize (solved : Size × Size) (win : WindowW) :
    Option Size × Option Size :=
  (if win.enforce_min then some solved.1 else none,
   if win.enforce_max then some solved.2 else none)

/-- C7: `size_rules` is pure and idempotent — querying the window twice
with the same axis and content yields the same `SizeRules`, and the query
leaves the widget state exactly as it was. -/
theorem size_rules_pure (metrics : List Char → AxisInfo → SizeRules)
    (win : WindowW) (axis : AxisInfo) :
    windowSizeRules metrics (windowSizeRules metrics win axis).2 axis
      = windowSizeRules metrics win axis
    ∧ (windowSizeRules metrics win axis).2 = win := ⟨rfl, rfl⟩

/-- C8: `Window::find_id` returns exactly its child's `find_id` result for
every coordinate, and a coordinate inside the window's rectangle but
outside the child's rectangle resolves to no widget. -/
theorem window_find_id (win : WindowW) (coord : Int × Int) :
    windowFindId win coord = textFindId win.w coord
    ∧ (win.core.contains coord = true → win.w.rect.contains coord = false →
        windowFindId win coord = none) := by
  refine ⟨rfl, fun _ hout => ?_⟩
  simp [windowFindId, textFindId, hout]

/-- Witness for C8: a coordinate inside a 100x100 window but outside its
child's 10x10 rectangle resolves to no widget. -/
theorem window_find_id_witness :
    windowFindId ⟨⟨(0, 0), (100, 100)⟩, true, false, [],
      ⟨7, [], ⟨(40, 40), (10, 10)⟩⟩⟩ (1, 1) = none :=
  (window_find_id ⟨⟨(0, 0), (100, 100)⟩, true, false, [],
      ⟨7, [], ⟨(40, 40), (10, 10)⟩⟩⟩ (1, 1)).2 (by decide) (by decide)

/-- C9: a window built by `Window::new` has `enforce_min = true` and
`enforce_max = false`, so until `set_enforce_size` is called `find_size`
returns `(some min, ideal)` and `resize` returns `(some min, none)` —
never an enforced maximum. -/
theorem window_new_enforcement (title : List Char) (w : TextWidget)
    (solvedMin solvedIdeal : Size) :
    (WindowW.new title w).enforce_min = true
    ∧ (WindowW.new title w).enforce_max = false
    ∧ windowFindSize (solvedMin, solvedIdeal) (WindowW.new title w)
        = (some solvedMin, solvedIdeal)
    ∧ windowResize (solvedMin, solvedIdeal) (WindowW.new title w)
        = (some solvedMin, none) :=
  ⟨rfl, rfl, rfl, rfl⟩

/-- C10: `is_primary` holds for every touch source and for the left mouse
button, and fails for every other mouse button. -/
theorem is_primary_spec :
    (∀ t : Nat, (PressSource.touch t).is_primary = true)
    ∧ (PressSource.mouse MouseButton.left).is_primary = true
    ∧ (∀ b : MouseButton, b ≠ MouseButton.left
        → (PressSource.mouse b).is_primary = false) := by
  refine ⟨fun t => rfl, rfl, fun b hb => ?_⟩
  simp [PressSource.is_primary, hb]

/-- Witness for C10: the right mouse button is not primary. -/
theorem is_primary_spec_witness :
    (PressSource.mouse MouseButton.right).is_primary = false :=
  is_primary_spec.2.2 MouseButton.right (by decide)

end Kas
